import Mathlib

/-!
# Verification of the kosztorys cost-estimation engine (src/app.py)

This file shallowly embeds the computation engine of `src/app.py`
(the functions `money`, `hours_for_montage_days` and `compute_summary`)
and settles the frozen claims about it.

Modelling conventions:

* Python `Decimal` values are modelled as exact rationals (`ℚ`).  A value
  quantized to two fractional digits is a rational of the form `c / 100`
  with `c : ℤ` (the amount in cents).  The Python `decimal` context has
  28 significant digits, which is exact for every product, quotient, sum
  and difference the engine forms at the sizes that occur here, so the
  only rounding points are the explicit `quantize` calls, which we model
  by `round2HU` / `round2HE` below.  Non-finite decimals (NaN, Infinity)
  are outside the model.
* `money` (app.py line 125) calls `.quantize(Decimal("0.01"), rounding=ROUND_HALF_UP)`:
  round half away from zero.  Every other `.quantize(Decimal("0.01"))`
  in `compute_summary` (lines 156, 160, 168, 174, 183, 192, 194, 195, 196)
  passes no rounding mode and therefore uses the default decimal context
  rounding, `ROUND_HALF_EVEN` (banker's rounding).
* Raw values reaching the engine (floats, strings, `None`) are modelled by
  `RawVal`: a value `Decimal(str(v))` parses to rational `q` (`RawVal.num q`),
  a `None` (`RawVal.none`), a blank string (`RawVal.blank`), or an
  unparseable string (`RawVal.invalid`).
* `compute_summary` converts `podatek_proc` at line 156 (and again at 201)
  and `nieprzewidziane_proc` at line 168 or 203 with a bare `Decimal(...)`,
  which raises on unparseable input; the embedding returns `Option` and
  hoists those two conversions to the front, which is extensionally the
  same because each of them runs before the function returns.
* The Python dict `wynagrodzenia_per_waluta` is modelled as a total map
  `String → ℚ` defaulting to `0`, matching `dict.get(k, Decimal("0.00"))`;
  only its lookups are observable in the claims.
-/

/-- Round a rational to cents with `ROUND_HALF_UP` (half away from zero),
  as in `money` (app.py line 131). -/
def centsHU (q : ℚ) : ℤ :=
  if 0 ≤ q then ⌊100 * q + 1 / 2⌋ else -⌊-(100 * q) + 1 / 2⌋

/-- Round a rational to cents with `ROUND_HALF_EVEN` (banker's rounding),
  the default decimal-context rounding used by every bare
  `.quantize(Decimal("0.01"))` in `compute_summary`. -/
def centsHE (q : ℚ) : ℤ :=
  if 100 * q - ⌊100 * q⌋ < 1 / 2 then ⌊100 * q⌋
  else if 1 / 2 < 100 * q - ⌊100 * q⌋ then ⌊100 * q⌋ + 1
  else if ⌊100 * q⌋ % 2 = 0 then ⌊100 * q⌋ else ⌊100 * q⌋ + 1

/-- `x.quantize(Decimal("0.01"), rounding=ROUND_HALF_UP)` as a map `ℚ → ℚ`. -/
def round2HU (q : ℚ) : ℚ := (centsHU q : ℚ) / 100

/-- `x.quantize(Decimal("0.01"))` (default `ROUND_HALF_EVEN`) as a map `ℚ → ℚ`. -/
def round2HE (q : ℚ) : ℚ := (centsHE q : ℚ) / 100

lemma floor_intCast_add_half (c : ℤ) : ⌊(c : ℚ) + 1 / 2⌋ = c := by
  rw [add_comm, Int.floor_add_int]
  norm_num

lemma centsHU_cast100 (c : ℤ) : centsHU ((c : ℚ) / 100) = c := by
  unfold centsHU
  have h : (100 : ℚ) * ((c : ℚ) / 100) = (c : ℚ) := by ring
  rw [h]
  split
  · exact floor_intCast_add_half c
  · have h2 : -(c : ℚ) = ((-c : ℤ) : ℚ) := by push_cast; ring
    rw [h2, floor_intCast_add_half]
    ring

lemma centsHE_cast100 (c : ℤ) : centsHE ((c : ℚ) / 100) = c := by
  unfold centsHE
  have h : (100 : ℚ) * ((c : ℚ) / 100) = (c : ℚ) := by ring
  rw [h, Int.floor_intCast]
  norm_num

lemma round2HU_cents (c : ℤ) : round2HU ((c : ℚ) / 100) = (c : ℚ) / 100 := by
  rw [round2HU, centsHU_cast100]

lemma round2HE_cents (c : ℤ) : round2HE ((c : ℚ) / 100) = (c : ℚ) / 100 := by
  rw [round2HE, centsHE_cast100]

lemma round2HE_natCast (n : ℕ) : round2HE ((n : ℚ)) = (n : ℚ) := by
  have h : ((n : ℚ)) = (((n : ℤ) * 100 : ℤ) : ℚ) / 100 := by push_cast; ring
  rw [h, round2HE_cents]

/-- A raw value as it reaches the engine from the UI layer. -/
inductive RawVal
  | none
  | blank
  | num (q : ℚ)
  | invalid
  deriving DecidableEq

/-- Cents returned by `money` (app.py lines 125-133): `None`, a blank string
  and an unparseable value all coerce to `0.00`; otherwise
  `Decimal(str(v)).quantize(Decimal("0.01"), rounding=ROUND_HALF_UP)`. -/
def moneyCents : RawVal → ℤ
  | .none => 0
  | .blank => 0
  | .num q => centsHU q
  | .invalid => 0

/-- `money` (app.py lines 125-133) as a map into exact rationals. -/
def money (v : RawVal) : ℚ := (moneyCents v : ℚ) / 100

/-- A bare `Decimal(v)` conversion (app.py lines 156, 168, 201, 203): it
  raises (`Option.none`) unless the value parses as a decimal. -/
def pyDecimal : RawVal → Option ℚ
  | .num q => some q
  | _ => Option.none

lemma money_eq_cents (v : RawVal) : money v = (moneyCents v : ℚ) / 100 := rfl

lemma round2HU_money (v : RawVal) : round2HU (money v) = money v := by
  rw [money_eq_cents, round2HU_cents]

lemma round2HE_money_mul_natCast (v : RawVal) (H : ℕ) :
    round2HE (money v * (H : ℚ)) = money v * (H : ℚ) := by
  have h : money v * (H : ℚ) = ((moneyCents v * (H : ℤ) : ℤ) : ℚ) / 100 := by
    rw [money_eq_cents]
    push_cast
    ring
  rw [h, round2HE_cents]

/-- The daily shift pattern of `hours_for_montage_days` (app.py line 142):
  a 6-day block, Mon-Fri 10 h and Sat 8 h, with no rest day in the modulus. -/
def pattern : List ℕ := [10, 10, 10, 10, 10, 8]

/-- `hours_for_montage_days` (app.py lines 140-145):
  `weeks * sum(pattern) + sum(pattern[:rem])` with `weeks = dni // 6`
  and `rem = dni % 6`. -/
def hours_for_montage_days (dni : ℕ) : ℕ :=
  dni / 6 * pattern.sum + (pattern.take (dni % 6)).sum

lemma take_sum_le (l : List ℕ) (n : ℕ) : (l.take n).sum ≤ l.sum := by
  induction l generalizing n with
  | nil => simp
  | cons a l ih =>
    cases n with
    | zero => simp
    | succ m =>
      simp only [List.take_succ_cons, List.sum_cons]
      exact Nat.add_le_add_left (ih m) a

lemma take_sum_mono (l : List ℕ) {m n : ℕ} (h : m ≤ n) :
    (l.take m).sum ≤ (l.take n).sum := by
  have h1 : l.take m = (l.take n).take m := by
    rw [List.take_take, Nat.min_eq_left h]
  rw [h1]
  exact take_sum_le (l.take n) m

/-- One row of the `dodatkowe_df` data frame: an extra-cost entry with a
  name (`Nazwa`) and an amount (`Koszt`). -/
structure ExtraCost where
  nazwa : String
  koszt : RawVal
  deriving DecidableEq

/-- One row of the `pracownicy_df` data frame: a worker with name, role,
  hourly rate (`Stawka`) and currency (`Waluta`). -/
structure WorkerRow where
  imie : String
  stanowisko : String
  stawka : RawVal
  waluta : String
  deriving DecidableEq

/-- The arguments of `compute_summary` (app.py lines 147-151).
  `nieprzewidziane_mode` is the string `"percent"` or `"manual"`;
  `dni_montazu` is the integer the UI passes (line 153 clamps it). -/
structure ProjectInput where
  kwota_calkowita : RawVal
  waluta_przychodu : String
  podatek_proc : RawVal
  zus_kwota : RawVal
  nieprzewidziane_mode : String
  nieprzewidziane_proc : RawVal
  nieprzewidziane_kwota_manual : RawVal
  paliwo_amort : RawVal
  hotel_day_rate : RawVal
  dni_montazu : ℤ
  dodatkowe : List ExtraCost
  pracownicy : List WorkerRow
  from_kwp : Bool
  kwp : RawVal
  stawka_kwp : RawVal
  deriving DecidableEq

/-- One entry of `pracownicy_obliczeni` (app.py lines 185-190). -/
structure WorkerComputed where
  imie : String
  stanowisko : String
  godziny : ℚ
  stawka : ℚ
  waluta : String
  wynagrodzenie : ℚ
  deriving DecidableEq

/-- The dict returned by `compute_summary` (app.py lines 198-210).
  `wynagrodzenia_per_waluta` is the wages dict, modelled as a total map
  defaulting to `0` (matching `dict.get(k, Decimal("0.00"))`). -/
structure CostSummary where
  waluta_przychodu : String
  dni_montazu : ℕ
  hotel_day : ℚ
  przychod : ℚ
  from_kwp : Bool
  kwp : ℚ
  stawka_kwp : ℚ
  podatek_proc : ℚ
  podatek_kwota : ℚ
  zus : ℚ
  paliwo : ℚ
  hotel_total : ℚ
  dodatkowe_sum : ℚ
  nieprzewidziane_mode : String
  nieprzewidziane_proc : ℚ
  nieprzewidziane_kwota : ℚ
  koszty_w_przychodzie : ℚ
  pracownicy_obliczeni : List WorkerComputed
  wynagrodzenia_per_waluta : String → ℚ
  godziny_na_osobe : ℚ
  saldo_po_kosztach : ℚ
  wyn_w_walucie_przych : ℚ
  saldo_po_kosztach_i_wyn : ℚ
  pieniadze_firmy : ℚ
  saldo_final : ℚ

/-- `dni = max(0, int(dni_montazu))` (app.py line 153). -/
def dniOf (inp : ProjectInput) : ℕ := (max 0 inp.dni_montazu).toNat

/-- `przychod = money(kwota_calkowita)` (line 154). -/
def przychodOf (inp : ProjectInput) : ℚ := money inp.kwota_calkowita

/-- `podatek_kwota = (przychod * Decimal(podatek_proc) / Decimal(100)).quantize(Decimal("0.01"))`
  (line 156); `a` is the parsed `Decimal(podatek_proc)`. -/
def podatekKwotaOf (inp : ProjectInput) (a : ℚ) : ℚ :=
  round2HE (przychodOf inp * a / 100)

/-- `hotel_total = (hotel_day * Decimal(dni)).quantize(Decimal("0.01"))` (line 160). -/
def hotelTotalOf (inp : ProjectInput) : ℚ :=
  round2HE (money inp.hotel_day_rate * (dniOf inp : ℚ))

/-- The `dodatkowe_sum` accumulation loop (lines 162-165): every row's
  `money(row.get("Koszt", 0))` is added, with no filtering on the name. -/
def dodatkoweSumOf (inp : ProjectInput) : ℚ :=
  inp.dodatkowe.foldl (fun acc e => acc + money e.koszt) 0

/-- `nieprzewidziane_kwota` (lines 167-170); `b` is the parsed
  `Decimal(nieprzewidziane_proc)`. -/
def nieprzKwotaOf (inp : ProjectInput) (b : ℚ) : ℚ :=
  if inp.nieprzewidziane_mode = "percent" then
    round2HE (przychodOf inp * b / 100)
  else money inp.nieprzewidziane_kwota_manual

/-- `koszty_w_przychodzie` (line 172), summed in source order with no
  further rounding. -/
def kosztyOf (inp : ProjectInput) (a b : ℚ) : ℚ :=
  podatekKwotaOf inp a + money inp.zus_kwota + money inp.paliwo_amort +
    hotelTotalOf inp + dodatkoweSumOf inp + nieprzKwotaOf inp b

/-- `godz_lacznie_na_osobe = Decimal(hours_for_montage_days(dni)).quantize(Decimal("0.01"))`
  (line 174). -/
def godzOf (inp : ProjectInput) : ℚ :=
  round2HE ((hours_for_montage_days (dniOf inp) : ℕ) : ℚ)

/-- `(row.get("Waluta", "PLN") or "PLN")` (line 182): an empty/falsy
  currency cell falls back to `"PLN"`. -/
def effWaluta (w : WorkerRow) : String :=
  if w.waluta = "" then "PLN" else w.waluta

/-- `(str(row.get("Imię i nazwisko", "")) or "—").strip() or "—"` (line 179). -/
def dispName (s : String) : String :=
  if s.trim = "" then "—" else s.trim

/-- The record appended to `pracownicy_obliczeni` for one worker
  (lines 179-190): `wyn = (stawka * godz_lacznie_na_osobe).quantize(Decimal("0.01"))`. -/
def mkWorkerComputed (godz : ℚ) (w : WorkerRow) : WorkerComputed :=
  { imie := dispName w.imie
    stanowisko := w.stanowisko.trim
    godziny := godz
    stawka := money w.stawka
    waluta := effWaluta w
    wynagrodzenie := round2HE (money w.stawka * godz) }

/-- A Python dict assignment `m[k] = v` on the wages dict. -/
def dictUpdate (m : String → ℚ) (k : String) (v : ℚ) : String → ℚ :=
  fun c => if c = k then v else m c

/-- One iteration of the worker loop (lines 178-190): append the computed
  row and bump `wynagrodzenia_per_waluta[waluta] = get(waluta, 0.00) + wyn`. -/
def workerStep (godz : ℚ) (acc : List WorkerComputed × (String → ℚ))
    (w : WorkerRow) : List WorkerComputed × (String → ℚ) :=
  (acc.1 ++ [mkWorkerComputed godz w],
   dictUpdate acc.2 (effWaluta w)
     (acc.2 (effWaluta w) + (mkWorkerComputed godz w).wynagrodzenie))

/-- The whole worker loop (lines 175-190), started from the empty list and
  the empty dict. -/
def workersOf (inp : ProjectInput) : List WorkerComputed × (String → ℚ) :=
  inp.pracownicy.foldl (workerStep (godzOf inp)) ([], fun _ => 0)

/-- `saldo_po_kosztach = (przychod - koszty_w_przychodzie).quantize(Decimal("0.01"))` (line 192). -/
def saldoPoKosztachOf (inp : ProjectInput) (a b : ℚ) : ℚ :=
  round2HE (przychodOf inp - kosztyOf inp a b)

/-- `wyn_w_walucie_przych = wynagrodzenia_per_waluta.get(waluta_przychodu, Decimal("0.00"))`
  (line 193). -/
def wynWOf (inp : ProjectInput) : ℚ :=
  (workersOf inp).2 inp.waluta_przychodu

/-- `saldo_po_kosztach_i_wyn` (line 194). -/
def saldo2Of (inp : ProjectInput) (a b : ℚ) : ℚ :=
  round2HE (saldoPoKosztachOf inp a b - wynWOf inp)

/-- `pieniadze_firmy = (saldo_po_kosztach_i_wyn * Decimal("0.10")).quantize(Decimal("0.01"))`
  (line 195); the base is not clamped at zero. -/
def pieniadzeFirmyOf (inp : ProjectInput) (a b : ℚ) : ℚ :=
  round2HE (saldo2Of inp a b * (10 / 100))

/-- `saldo_final = (saldo_po_kosztach_i_wyn - pieniadze_firmy).quantize(Decimal("0.01"))` (line 196). -/
def saldoFinalOf (inp : ProjectInput) (a b : ℚ) : ℚ :=
  round2HE (saldo2Of inp a b - pieniadzeFirmyOf inp a b)

/-- The dict built at lines 198-210, given the two parsed percentages
  `a = Decimal(podatek_proc)` and `b = Decimal(nieprzewidziane_proc)`. -/
def compute_summary_core (inp : ProjectInput) (a b : ℚ) : CostSummary :=
  { waluta_przychodu := inp.waluta_przychodu
    dni_montazu := dniOf inp
    hotel_day := money inp.hotel_day_rate
    przychod := przychodOf inp
    from_kwp := inp.from_kwp
    kwp := money inp.kwp
    stawka_kwp := money inp.stawka_kwp
    podatek_proc := a
    podatek_kwota := podatekKwotaOf inp a
    zus := money inp.zus_kwota
    paliwo := money inp.paliwo_amort
    hotel_total := hotelTotalOf inp
    dodatkowe_sum := dodatkoweSumOf inp
    nieprzewidziane_mode := inp.nieprzewidziane_mode
    nieprzewidziane_proc := b
    nieprzewidziane_kwota := nieprzKwotaOf inp b
    koszty_w_przychodzie := kosztyOf inp a b
    pracownicy_obliczeni := (workersOf inp).1
    wynagrodzenia_per_waluta := (workersOf inp).2
    godziny_na_osobe := godzOf inp
    saldo_po_kosztach := saldoPoKosztachOf inp a b
    wyn_w_walucie_przych := wynWOf inp
    saldo_po_kosztach_i_wyn := saldo2Of inp a b
    pieniadze_firmy := pieniadzeFirmyOf inp a b
    saldo_final := saldoFinalOf inp a b }

/-- `compute_summary` (app.py lines 147-210).  The two bare `Decimal(...)`
  conversions of the percentage fields (lines 156/201 and 168/203) raise on
  unparseable values; every execution of the Python function performs both
  before returning, so they are hoisted in front of the pure core. -/
def compute_summary (inp : ProjectInput) : Option CostSummary :=
  (pyDecimal inp.podatek_proc).bind fun a =>
    (pyDecimal inp.nieprzewidziane_proc).bind fun b =>
      some (compute_summary_core inp a b)

/-- The three settlement figures of §4.4: `saldo_po_kosztach_i_wyn`,
  `pieniadze_firmy`, `saldo_final`. -/
def settlement (s : CostSummary) : ℚ × ℚ × ℚ :=
  (s.saldo_po_kosztach_i_wyn, s.pieniadze_firmy, s.saldo_final)

lemma compute_summary_some {inp : ProjectInput} {s : CostSummary}
    (h : compute_summary inp = some s) :
    ∃ a b, pyDecimal inp.podatek_proc = some a ∧
      pyDecimal inp.nieprzewidziane_proc = some b ∧
      s = compute_summary_core inp a b := by
  unfold compute_summary at h
  cases hp : pyDecimal inp.podatek_proc with
  | none => rw [hp] at h; simp at h
  | some a =>
    rw [hp] at h
    cases hn : pyDecimal inp.nieprzewidziane_proc with
    | none => rw [hn] at h; simp at h
    | some b =>
      rw [hn] at h
      simp only [Option.some_bind, Option.some.injEq] at h
      exact ⟨a, b, rfl, rfl, h.symm⟩

lemma workerFold_fst (godz : ℚ) (ws : List WorkerRow)
    (l : List WorkerComputed) (m : String → ℚ) :
    (ws.foldl (workerStep godz) (l, m)).1 = l ++ ws.map (mkWorkerComputed godz) := by
  induction ws generalizing l m with
  | nil => simp
  | cons w ws ih =>
    simp only [List.foldl_cons, List.map_cons]
    rw [workerStep, ih]
    simp

lemma workerFold_snd (godz : ℚ) (ws : List WorkerRow)
    (l : List WorkerComputed) (m : String → ℚ) (c : String) :
    (ws.foldl (workerStep godz) (l, m)).2 c
      = m c + ((ws.filter (fun w => effWaluta w = c)).map
          (fun w => (mkWorkerComputed godz w).wynagrodzenie)).sum := by
  induction ws generalizing l m with
  | nil => simp
  | cons w ws ih =>
    simp only [List.foldl_cons]
    rw [ih]
    by_cases hc : effWaluta w = c
    · rw [List.filter_cons_of_pos (by simp [hc])]
      simp only [workerStep, dictUpdate, hc, List.map_cons, List.sum_cons,
        eq_self_iff_true, if_true]
      ring
    · rw [List.filter_cons_of_neg (by simp [hc])]
      simp only [workerStep, dictUpdate]
      rw [if_neg (fun h => hc h.symm)]

lemma extraFold_eq_sum (l : List ExtraCost) (a : ℚ) :
    l.foldl (fun acc e => acc + money e.koszt) a
      = a + (l.map (fun e => money e.koszt)).sum := by
  induction l generalizing a with
  | nil => simp
  | cons e l ih =>
    simp only [List.foldl_cons, List.map_cons, List.sum_cons]
    rw [ih]
    ring

lemma extraFilter_sum (l : List ExtraCost) :
    ((l.filter (fun e => ¬(e.nazwa.trim = "" ∧ money e.koszt = 0))).map
        (fun e => money e.koszt)).sum
      = (l.map (fun e => money e.koszt)).sum := by
  induction l with
  | nil => simp
  | cons e l ih =>
    by_cases h : e.nazwa.trim = "" ∧ money e.koszt = 0
    · rw [List.filter_cons_of_neg (by simp [h.1, h.2])]
      simp only [List.map_cons, List.sum_cons, h.2, zero_add, ih]
    · rw [List.filter_cons_of_pos (by simp only [decide_eq_true_eq]; exact h)]
      simp only [List.map_cons, List.sum_cons, ih]

lemma wages_cumulative (H : ℕ) (ws : List WorkerRow) (a : ℤ) :
    ((a : ℚ) / 100) + (ws.map (fun w => round2HE (money w.stawka * (H : ℚ)))).sum
      = ws.foldl (fun acc w => round2HU (acc + round2HU (money w.stawka * (H : ℚ))))
          ((a : ℚ) / 100) := by
  induction ws generalizing a with
  | nil => simp
  | cons w ws ih =>
    simp only [List.map_cons, List.sum_cons, List.foldl_cons]
    have e : money w.stawka * (H : ℚ)
        = ((moneyCents w.stawka * (H : ℤ) : ℤ) : ℚ) / 100 := by
      rw [money_eq_cents]
      push_cast
      ring
    rw [e, round2HE_cents, round2HU_cents]
    have e2 : (a : ℚ) / 100 + ((moneyCents w.stawka * (H : ℤ) : ℤ) : ℚ) / 100
        = ((a + moneyCents w.stawka * (H : ℤ) : ℤ) : ℚ) / 100 := by
      push_cast
      ring
    rw [e2, round2HU_cents, ← ih (a + moneyCents w.stawka * (H : ℤ))]
    push_cast
    ring

/-- A zero-valued, empty `ProjectInput`, the base of the concrete inputs
  used below. -/
def baseInput : ProjectInput :=
  { kwota_calkowita := RawVal.num 0
    waluta_przychodu := "PLN"
    podatek_proc := RawVal.num 0
    zus_kwota := RawVal.num 0
    nieprzewidziane_mode := "manual"
    nieprzewidziane_proc := RawVal.num 0
    nieprzewidziane_kwota_manual := RawVal.num 0
    paliwo_amort := RawVal.num 0
    hotel_day_rate := RawVal.num 0
    dni_montazu := 0
    dodatkowe := []
    pracownicy := []
    from_kwp := false
    kwp := RawVal.num 0
    stawka_kwp := RawVal.num 0 }

/-- **C1** counterexample.  The claim asserts the 7-day convention, under
  which `HoursFromDays(7) = 58`; `hours_for_montage_days` (app.py lines
  140-145) divides by 6 and returns 68 for 7 days. -/
theorem C1_counterexample :
    hours_for_montage_days 7 = 68 ∧ hours_for_montage_days 7 ≠ 58 :=
  ⟨rfl, by decide⟩

/-- **C1** (amended).  For every integer `days ≥ 0` the converter returns
  `full_weeks × 58 + sum(pattern[0 : remainder_days])` where
  `pattern = [10, 10, 10, 10, 10, 8]` (a 6-day block with no rest day in
  the modulus), `full_weeks = days div 6` and `remainder_days = days mod 6`;
  in particular it returns 0 for `days = 0`, 68 for `days = 7`, 78 for
  `days = 8`, and 136 for `days = 14`. -/
theorem C1_hours_formula :
    (∀ days : ℕ, hours_for_montage_days days
        = days / 6 * 58 + (pattern.take (days % 6)).sum) ∧
    hours_for_montage_days 0 = 0 ∧ hours_for_montage_days 7 = 68 ∧
    hours_for_montage_days 8 = 78 ∧ hours_for_montage_days 14 = 136 :=
  ⟨fun _ => rfl, rfl, rfl, rfl, rfl⟩

/-- **C8**.  The hours-from-days converter is a total function on ℕ and is
  monotonically non-decreasing: `days1 < days2` implies
  `hours_for_montage_days days1 ≤ hours_for_montage_days days2`. -/
theorem C8_hours_monotone (days1 days2 : ℕ) (h : days1 < days2) :
    hours_for_montage_days days1 ≤ hours_for_montage_days days2 := by
  have h' : days1 ≤ days2 := Nat.le_of_lt h
  have hdiv : days1 / 6 ≤ days2 / 6 := Nat.div_le_div_right h'
  rcases Nat.lt_or_ge (days1 / 6) (days2 / 6) with hlt | hge
  · have h1 : (pattern.take (days1 % 6)).sum ≤ pattern.sum := take_sum_le _ _
    calc hours_for_montage_days days1
        = days1 / 6 * pattern.sum + (pattern.take (days1 % 6)).sum := rfl
      _ ≤ days1 / 6 * pattern.sum + pattern.sum := Nat.add_le_add_left h1 _
      _ = (days1 / 6 + 1) * pattern.sum := by ring
      _ ≤ days2 / 6 * pattern.sum := Nat.mul_le_mul_right _ hlt
      _ ≤ hours_for_montage_days days2 := Nat.le_add_right _ _
  · have heq : days1 / 6 = days2 / 6 := Nat.le_antisymm hdiv hge
    have hmod : days1 % 6 ≤ days2 % 6 := by omega
    unfold hours_for_montage_days
    rw [heq]
    exact Nat.add_le_add_left (take_sum_mono pattern hmod) _

/-- **C8** witness at `days1 = 3 < days2 = 10`. -/
theorem C8_witness :
    (3 : ℕ) < 10 ∧ hours_for_montage_days 3 ≤ hours_for_montage_days 10 :=
  ⟨by decide, C8_hours_monotone 3 10 (by decide)⟩

/-- **C10**.  The implemented converter is periodic with period 6, not 7:
  `hours_for_montage_days (days + 6) = hours_for_montage_days days + 58`
  for every `days`, while the corresponding 7-day identity fails. -/
theorem C10_period_six :
    (∀ days : ℕ,
        hours_for_montage_days (days + 6) = hours_for_montage_days days + 58) ∧
    ¬ (∀ days : ℕ,
        hours_for_montage_days (days + 7) = hours_for_montage_days days + 58) := by
  constructor
  · intro days
    unfold hours_for_montage_days
    rw [Nat.add_div_right days (by norm_num), Nat.add_mod_right]
    have hs : pattern.sum = 58 := rfl
    rw [hs]
    ring
  · intro hcontra
    have h0 := hcontra 0
    revert h0
    decide

/-- Concrete input for C2: revenue 5.00, tax rate 2.5 % — the exact tax is
  0.125, a half-cent tie. -/
def inputC2 : ProjectInput :=
  { baseInput with kwota_calkowita := RawVal.num 5, podatek_proc := RawVal.num (5/2) }

/-- Concrete input for C3: revenue 0.25, no costs — `balance_after_wages`
  is 0.25 and the exact margin 0.025 is a half-cent tie. -/
def inputC3 : ProjectInput :=
  { baseInput with kwota_calkowita := RawVal.num (25/100) }

/-- Concrete input for C3's end-to-end scenario: revenue 1000, a single
  flat cost (ZUS) of 1500, no workers. -/
def inputC3neg : ProjectInput :=
  { baseInput with kwota_calkowita := RawVal.num 1000, zus_kwota := RawVal.num 1500 }

/-- Concrete input for C5: an unparseable tax-rate percentage. -/
def inputC5bad : ProjectInput :=
  { baseInput with podatek_proc := RawVal.invalid }

/-- Concrete input for C5's witness: unparseable/None/blank money fields,
  but parseable percentage fields. -/
def inputC5good : ProjectInput :=
  { baseInput with
    kwota_calkowita := RawVal.invalid
    zus_kwota := RawVal.none
    paliwo_amort := RawVal.blank }

set_option maxRecDepth 100000 in
/-- **C2** counterexample.  On `inputC2` the exact tax is
  `5 × 2.5 / 100 = 0.125`; the engine quantizes it with the default
  half-even rounding to `0.12`, while the claimed round-half-up gives
  `0.13`. -/
theorem C2_counterexample :
    (compute_summary inputC2).map CostSummary.podatek_kwota = some (12/100) ∧
    round2HU ((5 : ℚ) * (5/2) / 100) = 13/100 ∧ ((12 : ℚ)/100) ≠ 13/100 :=
  of_decide_eq_true (by with_unfolding_all rfl)

/-- **C2** (amended).  Only the input coercion `money` rounds half-up; the
  intermediate monetary steps of `compute_summary` (tax amount, hotel
  total, percent contingency, each worker's wage, both balances, the
  company margin and the final balance) quantize with the default
  `ROUND_HALF_EVEN`, so a half-cent tie rounds to the even cent
  (`0.125 → 0.12`), not away from zero (`0.13`). -/
theorem C2_rounding_modes :
    (∀ q : ℚ, money (RawVal.num q) = round2HU q) ∧
    (round2HE (1/8) = 12/100 ∧ round2HU (1/8) = 13/100) ∧
    ∀ (inp : ProjectInput) (a b : ℚ) (s : CostSummary),
      pyDecimal inp.podatek_proc = some a →
      pyDecimal inp.nieprzewidziane_proc = some b →
      compute_summary inp = some s →
      s.przychod = money inp.kwota_calkowita ∧
      s.podatek_kwota = round2HE (s.przychod * a / 100) ∧
      s.hotel_total = round2HE (s.hotel_day * (dniOf inp : ℚ)) ∧
      (inp.nieprzewidziane_mode = "percent" →
        s.nieprzewidziane_kwota = round2HE (s.przychod * b / 100)) ∧
      (∀ r ∈ s.pracownicy_obliczeni,
        r.wynagrodzenie = round2HE (r.stawka * r.godziny)) ∧
      s.saldo_po_kosztach = round2HE (s.przychod - s.koszty_w_przychodzie) ∧
      s.saldo_po_kosztach_i_wyn
        = round2HE (s.saldo_po_kosztach - s.wyn_w_walucie_przych) ∧
      s.pieniadze_firmy = round2HE (s.saldo_po_kosztach_i_wyn * (10/100)) ∧
      s.saldo_final = round2HE (s.saldo_po_kosztach_i_wyn - s.pieniadze_firmy) := by
  refine ⟨fun q => rfl,
    ⟨of_decide_eq_true (by with_unfolding_all rfl),
     of_decide_eq_true (by with_unfolding_all rfl)⟩, ?_⟩
  intro inp a b s hp hn h
  obtain ⟨a', b', ha', hb', rfl⟩ := compute_summary_some h
  rw [hp] at ha'
  rw [hn] at hb'
  obtain rfl : a = a' := by injection ha'
  obtain rfl : b = b' := by injection hb'
  refine ⟨rfl, rfl, rfl, ?_, ?_, rfl, rfl, rfl, rfl⟩
  · intro hm
    show nieprzKwotaOf inp b = _
    rw [nieprzKwotaOf, if_pos hm]
    rfl
  · intro r hr
    have hl : (compute_summary_core inp a b).pracownicy_obliczeni
        = inp.pracownicy.map (mkWorkerComputed (godzOf inp)) := by
      show (workersOf inp).1 = _
      rw [workersOf, workerFold_fst]
      simp
    rw [hl] at hr
    obtain ⟨w, _, rfl⟩ := List.mem_map.mp hr
    rfl

/-- **C2** witness: the amended theorem applied at `inputC2` with both
  percentage parses discharged. -/
theorem C2_witness :
    pyDecimal inputC2.podatek_proc = some (5/2) ∧
    pyDecimal inputC2.nieprzewidziane_proc = some 0 ∧
    compute_summary inputC2 = some (compute_summary_core inputC2 (5/2) 0) ∧
    (compute_summary_core inputC2 (5/2) 0).podatek_kwota
      = round2HE ((compute_summary_core inputC2 (5/2) 0).przychod * (5/2) / 100) :=
  ⟨rfl, rfl, rfl,
    (C2_rounding_modes.2.2 inputC2 (5/2) 0 (compute_summary_core inputC2 (5/2) 0)
      rfl rfl rfl).2.1⟩

set_option maxRecDepth 100000 in
/-- **C3** counterexample.  On `inputC3`, `balance_after_wages = 0.25` and
  the engine's margin is `0.02` (half-even at the 0.025 tie), while the
  claim's `round2` (the spec's round-half-up) gives `0.03`. -/
theorem C3_counterexample :
    (compute_summary inputC3).map CostSummary.saldo_po_kosztach_i_wyn
      = some (25/100) ∧
    (compute_summary inputC3).map CostSummary.pieniadze_firmy = some (2/100) ∧
    round2HU ((25/100 : ℚ) * (10/100)) = 3/100 ∧ ((2 : ℚ)/100) ≠ 3/100 :=
  of_decide_eq_true (by with_unfolding_all rfl)

set_option maxRecDepth 100000 in
/-- **C3** (amended).  The company margin is
  `quantizeHalfEven(balance_after_wages × 0.10)` with no clamping of the
  base at zero, and the final balance is
  `quantizeHalfEven(balance_after_wages − company_margin)`; on the concrete
  scenario (revenue 1000, total costs 1500, no workers) the balances are
  −500.00, the margin −50.00 and the final balance −450.00. -/
theorem C3_margin_unclamped :
    (∀ (inp : ProjectInput) (s : CostSummary), compute_summary inp = some s →
      s.pieniadze_firmy = round2HE (s.saldo_po_kosztach_i_wyn * (10/100)) ∧
      s.saldo_final = round2HE (s.saldo_po_kosztach_i_wyn - s.pieniadze_firmy)) ∧
    (compute_summary inputC3neg).map settlement = some (-500, -50, -450) := by
  constructor
  · intro inp s h
    obtain ⟨a, b, _, _, rfl⟩ := compute_summary_some h
    exact ⟨rfl, rfl⟩
  · exact of_decide_eq_true (by with_unfolding_all rfl)

/-- **C3** witness: the amended theorem applied at `inputC3neg`. -/
theorem C3_witness :
    compute_summary inputC3neg = some (compute_summary_core inputC3neg 0 0) ∧
    (compute_summary_core inputC3neg 0 0).pieniadze_firmy
      = round2HE ((compute_summary_core inputC3neg 0 0).saldo_po_kosztach_i_wyn
          * (10/100)) :=
  ⟨rfl, (C3_margin_unclamped.1 inputC3neg (compute_summary_core inputC3neg 0 0) rfl).1⟩

/-- **C5** counterexample.  With an unparseable tax-rate percentage the
  engine raises (`Decimal(podatek_proc)` at app.py line 156), so
  `compute_summary` produces no `CostSummary`. -/
theorem C5_counterexample : compute_summary inputC5bad = Option.none := rfl

/-- **C5** (amended).  The fields passed through `money` (revenue, ZUS,
  fuel, hotel rate, manual contingency, extra costs, worker rates) coerce
  `None`, blank and unparseable values to `0.00`, and `compute_summary`
  returns a `CostSummary` for every input whose tax-rate and contingency
  percentages parse as decimals; those two fields bypass `money` and an
  unparseable value there raises. -/
theorem C5_total_when_percents_parse :
    (money RawVal.none = 0 ∧ money RawVal.blank = 0 ∧ money RawVal.invalid = 0) ∧
    ∀ inp : ProjectInput, (pyDecimal inp.podatek_proc).isSome →
      (pyDecimal inp.nieprzewidziane_proc).isSome →
      (compute_summary inp).isSome := by
  refine ⟨⟨by with_unfolding_all rfl, by with_unfolding_all rfl,
    by with_unfolding_all rfl⟩, fun inp hp hn => ?_⟩
  rw [Option.isSome_iff_exists] at hp hn
  obtain ⟨a, ha⟩ := hp
  obtain ⟨b, hb⟩ := hn
  unfold compute_summary
  rw [ha, hb]
  rfl

/-- **C5** witness: an input whose money fields are all unparseable but
  whose percentage fields parse; the engine still returns a summary. -/
theorem C5_witness :
    (pyDecimal inputC5good.podatek_proc).isSome = true ∧
    (pyDecimal inputC5good.nieprzewidziane_proc).isSome = true ∧
    (compute_summary inputC5good).isSome = true :=
  ⟨rfl, rfl, C5_total_when_percents_parse.2 inputC5good rfl rfl⟩

lemma workersOf_snd_all (inp : ProjectInput) (C : String)
    (hall : ∀ w ∈ inp.pracownicy, effWaluta w = C) :
    (workersOf inp).2 C
      = (inp.pracownicy.map
          (fun w => round2HE (money w.stawka * godzOf inp))).sum := by
  rw [workersOf, workerFold_snd]
  rw [List.filter_eq_self.mpr (fun w hw => by simpa using hall w hw)]
  simp [mkWorkerComputed]

/-- **C4**.  No-FX invariance: two worker lists with the same sublist of
  workers in the revenue currency (after the `or "PLN"` defaulting of
  line 182) produce the same `saldo_po_kosztach_i_wyn`, `pieniadze_firmy`
  and `saldo_final`; workers in any other currency never enter the
  settlement. -/
theorem C4_no_fx (inp : ProjectInput) (ws1 ws2 : List WorkerRow)
    (h : ws1.filter (fun w => effWaluta w = inp.waluta_przychodu)
       = ws2.filter (fun w => effWaluta w = inp.waluta_przychodu)) :
    (compute_summary { inp with pracownicy := ws1 }).map settlement
      = (compute_summary { inp with pracownicy := ws2 }).map settlement := by
  have hw : wynWOf { inp with pracownicy := ws1 }
      = wynWOf { inp with pracownicy := ws2 } := by
    have hg : godzOf { inp with pracownicy := ws1 }
        = godzOf { inp with pracownicy := ws2 } := rfl
    show (ws1.foldl (workerStep (godzOf { inp with pracownicy := ws1 }))
          ([], fun _ => 0)).2 inp.waluta_przychodu
        = (ws2.foldl (workerStep (godzOf { inp with pracownicy := ws2 }))
          ([], fun _ => 0)).2 inp.waluta_przychodu
    rw [hg, workerFold_snd, workerFold_snd, h]
  have hsettle : ∀ a b : ℚ,
      settlement (compute_summary_core { inp with pracownicy := ws1 } a b)
        = settlement (compute_summary_core { inp with pracownicy := ws2 } a b) := by
    intro a b
    have e1 : settlement (compute_summary_core { inp with pracownicy := ws1 } a b)
        = (saldo2Of { inp with pracownicy := ws1 } a b,
           pieniadzeFirmyOf { inp with pracownicy := ws1 } a b,
           saldoFinalOf { inp with pracownicy := ws1 } a b) := rfl
    have e2 : settlement (compute_summary_core { inp with pracownicy := ws2 } a b)
        = (saldo2Of { inp with pracownicy := ws2 } a b,
           pieniadzeFirmyOf { inp with pracownicy := ws2 } a b,
           saldoFinalOf { inp with pracownicy := ws2 } a b) := rfl
    have hs : saldoPoKosztachOf { inp with pracownicy := ws1 } a b
        = saldoPoKosztachOf { inp with pracownicy := ws2 } a b := rfl
    rw [e1, e2]
    unfold saldoFinalOf pieniadzeFirmyOf saldo2Of
    rw [hs, hw]
  have e1 : compute_summary { inp with pracownicy := ws1 }
      = (pyDecimal inp.podatek_proc).bind fun a =>
          (pyDecimal inp.nieprzewidziane_proc).bind fun b =>
            some (compute_summary_core { inp with pracownicy := ws1 } a b) := rfl
  have e2 : compute_summary { inp with pracownicy := ws2 }
      = (pyDecimal inp.podatek_proc).bind fun a =>
          (pyDecimal inp.nieprzewidziane_proc).bind fun b =>
            some (compute_summary_core { inp with pracownicy := ws2 } a b) := rfl
  rw [e1, e2]
  cases hp : pyDecimal inp.podatek_proc with
  | none => rfl
  | some a =>
    cases hn : pyDecimal inp.nieprzewidziane_proc with
    | none => rfl
    | some b =>
      simp only [Option.some_bind, Option.map_some']
      rw [hsettle a b]

/-- Concrete input for C4's witness. -/
def inputC4 : ProjectInput :=
  { baseInput with kwota_calkowita := RawVal.num 1000 }

/-- A single EUR worker, absent from the PLN settlement. -/
def workersC4eur : List WorkerRow :=
  [{ imie := "A", stanowisko := "monter", stawka := RawVal.num 20, waluta := "EUR" }]

/-- **C4** witness: adding one EUR worker to a PLN project leaves all three
  settlement figures unchanged. -/
theorem C4_witness :
    workersC4eur.filter (fun w => effWaluta w = inputC4.waluta_przychodu)
      = ([] : List WorkerRow).filter (fun w => effWaluta w = inputC4.waluta_przychodu) ∧
    (compute_summary { inputC4 with pracownicy := workersC4eur }).map settlement
      = (compute_summary { inputC4 with pracownicy := [] }).map settlement :=
  ⟨of_decide_eq_true (by with_unfolding_all rfl),
   C4_no_fx inputC4 workersC4eur [] (of_decide_eq_true (by with_unfolding_all rfl))⟩

/-- **C6**.  For a worker list all in one currency `C`, the engine's
  `wages_by_currency[C]` equals the cumulatively rounded sum of the
  claim: each wage `round2(hourly_rate × total_hours)` is rounded before
  being added and each partial sum is re-rounded after each addition,
  in insertion order (`round2` read as the spec's round-half-up). -/
theorem C6_cumulative_wages (inp : ProjectInput) (C : String) (s : CostSummary)
    (h : compute_summary inp = some s)
    (hall : ∀ w ∈ inp.pracownicy, effWaluta w = C) :
    s.wynagrodzenia_per_waluta C
      = inp.pracownicy.foldl
          (fun acc w => round2HU (acc + round2HU (money w.stawka * s.godziny_na_osobe)))
          0 := by
  obtain ⟨a, b, _, _, rfl⟩ := compute_summary_some h
  have hg : godzOf inp = ((hours_for_montage_days (dniOf inp) : ℕ) : ℚ) :=
    round2HE_natCast _
  show (workersOf inp).2 C = inp.pracownicy.foldl
      (fun acc w => round2HU (acc + round2HU (money w.stawka * godzOf inp))) 0
  rw [workersOf_snd_all inp C hall, hg]
  have hc := wages_cumulative (hours_for_montage_days (dniOf inp)) inp.pracownicy 0
  simpa using hc

/-- Concrete input for C6's witness: 7 installation days (68 h), two PLN
  workers at 20.00/h and 0.125/h (the latter coerces to 0.13 via `money`). -/
def inputC6 : ProjectInput :=
  { baseInput with
    dni_montazu := 7
    pracownicy := [
      { imie := "A", stanowisko := "monter", stawka := RawVal.num 20, waluta := "PLN" },
      { imie := "B", stanowisko := "monter", stawka := RawVal.num (1/8), waluta := "PLN" }] }

/-- **C6** witness at `inputC6`. -/
theorem C6_witness :
    compute_summary inputC6 = some (compute_summary_core inputC6 0 0) ∧
    (∀ w ∈ inputC6.pracownicy, effWaluta w = "PLN") ∧
    (compute_summary_core inputC6 0 0).wynagrodzenia_per_waluta "PLN"
      = inputC6.pracownicy.foldl
          (fun acc w => round2HU (acc + round2HU (money w.stawka *
            (compute_summary_core inputC6 0 0).godziny_na_osobe))) 0 := by
  refine ⟨rfl, ?_, ?_⟩
  · exact of_decide_eq_true (by with_unfolding_all rfl)
  · exact C6_cumulative_wages inputC6 "PLN" (compute_summary_core inputC6 0 0) rfl
      (of_decide_eq_true (by with_unfolding_all rfl))

/-- **C7**.  An extra-cost row contributes `money(amount)` to
  `dodatkowe_sum` regardless of its name; rows with a blank name and zero
  amount contribute 0, so the computed sum equals the sum over the list
  with those rows removed. -/
theorem C7_extra_costs (inp : ProjectInput) (s : CostSummary)
    (h : compute_summary inp = some s) :
    s.dodatkowe_sum
      = ((inp.dodatkowe.filter
            (fun e => ¬(e.nazwa.trim = "" ∧ money e.koszt = 0))).map
          (fun e => money e.koszt)).sum := by
  obtain ⟨a, b, _, _, rfl⟩ := compute_summary_some h
  show dodatkoweSumOf inp = _
  rw [dodatkoweSumOf, extraFold_eq_sum, extraFilter_sum]
  ring

/-- Concrete input for C7's witness: one blank-and-zero row, one real row. -/
def inputC7 : ProjectInput :=
  { baseInput with dodatkowe := [
      { nazwa := "", koszt := RawVal.num 0 },
      { nazwa := "paliwo", koszt := RawVal.num 150 }] }

/-- **C7** witness at `inputC7`. -/
theorem C7_witness :
    compute_summary inputC7 = some (compute_summary_core inputC7 0 0) ∧
    (compute_summary_core inputC7 0 0).dodatkowe_sum
      = ((inputC7.dodatkowe.filter
            (fun e => ¬(e.nazwa.trim = "" ∧ money e.koszt = 0))).map
          (fun e => money e.koszt)).sum :=
  ⟨rfl, C7_extra_costs inputC7 (compute_summary_core inputC7 0 0) rfl⟩

/-- **C9**.  Every row of the per-worker breakdown carries the same hours
  value `godziny_na_osobe`, which is the hours derived once from the
  installation days. -/
theorem C9_uniform_hours (inp : ProjectInput) (s : CostSummary)
    (h : compute_summary inp = some s) :
    ∀ r ∈ s.pracownicy_obliczeni,
      r.godziny = s.godziny_na_osobe ∧
      r.godziny = ((hours_for_montage_days (dniOf inp) : ℕ) : ℚ) := by
  obtain ⟨a, b, _, _, rfl⟩ := compute_summary_some h
  intro r hr
  have hl : (compute_summary_core inp a b).pracownicy_obliczeni
      = inp.pracownicy.map (mkWorkerComputed (godzOf inp)) := by
    show (workersOf inp).1 = _
    rw [workersOf, workerFold_fst]
    simp
  rw [hl] at hr
  obtain ⟨w, _, rfl⟩ := List.mem_map.mp hr
  exact ⟨rfl, round2HE_natCast _⟩

/-- Concrete input for C9's witness: 8 installation days, two workers in
  different currencies. -/
def inputC9 : ProjectInput :=
  { baseInput with
    dni_montazu := 8
    pracownicy := [
      { imie := "A", stanowisko := "monter", stawka := RawVal.num 20, waluta := "PLN" },
      { imie := "B", stanowisko := "pomocnik", stawka := RawVal.num 30, waluta := "EUR" }] }

/-- **C9** witness at `inputC9`. -/
theorem C9_witness :
    compute_summary inputC9 = some (compute_summary_core inputC9 0 0) ∧
    ∀ r ∈ (compute_summary_core inputC9 0 0).pracownicy_obliczeni,
      r.godziny = (compute_summary_core inputC9 0 0).godziny_na_osobe ∧
      r.godziny = ((hours_for_montage_days (dniOf inputC9) : ℕ) : ℚ) :=
  ⟨rfl, C9_uniform_hours inputC9 (compute_summary_core inputC9 0 0) rfl⟩
